import Mathlib

/-
Shallow embedding of scooby (src/scooby/versions.py): the `Versions` class,
its package registry `_packages`, the import helpers, and the version
resolver `get_version`.

Python objects that matter here are modelled explicitly:
  * a loaded module is a `PyModule` (its `__name__` plus its attribute dict);
  * `mock.Mock()` stand-ins are the `Handle.mock` constructor; attribute
    access on a `Mock` auto-creates a child value for ordinary names but
    raises `AttributeError` for dunder names (such as `__version__`) and for
    names starting with `assert`/`assret` - this is the documented behaviour
    of the `mock` library and is what makes the fallback chain in
    `get_version` reach the `unknown` sentinel for mocked modules;
  * Python dicts keyed by strings (`self._packages`, `sys.modules`) are
    insertion-ordered association lists with last-write-wins assignment that
    keeps the position of an existing key (`dictInsert`);
  * raising is modelled with `Except`, paired with the state at the moment
    the exception leaves the function (Python mutations before a raise are
    not rolled back);
  * `logging.warning` calls are accumulated in a `log` list of structured
    messages, each carrying the identifier it names.
-/

deriving instance DecidableEq for Except

namespace Scooby

/-- A Python attribute value as far as this program observes it: either a
string (version strings, `__name__`) or the auto-created child of a
`mock.Mock` attribute access. -/
inductive PyObj where
  | str (s : String)
  | mockAttr
deriving DecidableEq

/-- A loaded Python module: its `__name__` and its attribute dictionary. -/
structure PyModule where
  mod_name : String
  attrs : List (String × PyObj)
deriving DecidableEq

/-- A handle held for a component: a genuine loaded module, or the
`mock.Mock()` stand-in that `_safe_import_by_name` substitutes on import
failure. -/
inductive Handle where
  | module (m : PyModule)
  | mock
deriving DecidableEq

/-- A Python value passed into `add_packages` elements or `get_version`:
a string name, a module handle, `None`, or (representative of any other
type) an integer. -/
inductive PyValue where
  | str (s : String)
  | module (m : PyModule)
  | noneVal
  | intVal (n : Int)
deriving DecidableEq

/-- The top-level argument of `add_packages`: a list/tuple of values, or
anything else (which the isinstance guard rejects). -/
inductive PyArg where
  | pyList (l : List PyValue)
  | notAList
deriving DecidableEq

/-- A raised Python exception, by class. -/
inductive PyErr where
  | typeError (msg : String)
  | attributeError (msg : String)
deriving DecidableEq

/-- A `logging.warning` diagnostic emitted by versions.py, carrying the
identifier it names: `Could not import module ... This will be mocked.`
or `Varsion attribute for ... is unknown.`. -/
inductive LogMsg where
  | couldNotImport (name : String)
  | versionUnknown (name : String)
deriving DecidableEq

/-- Lookup in a string-keyed association list (Python dict read `d[k]`,
returning `none` where Python raises `KeyError`). -/
def alookup {α : Type} : List (String × α) → String → Option α
  | [], _ => Option.none
  | (k', v) :: rest, k => if k' = k then Option.some v else alookup rest k

/-- Python dict assignment `d[k] = v`: overwrites in place when the key is
present (keeping its position in the insertion order), otherwise appends. -/
def dictInsert {α : Type} : List (String × α) → String → α → List (String × α)
  | [], k, v => [(k, v)]
  | (k', v') :: rest, k, v =>
      if k' = k then (k, v) :: rest else (k', v') :: dictInsert rest k v

/-- The import capability of the host: which names `importlib` can load
fresh, and to which module. -/
abbrev ImportEnv := List (String × PyModule)

/-- The process-wide module cache `sys.modules`. -/
abbrev SysModules := List (String × Handle)

/-- Modelled from the spec: `VersionAttributeOverrides`, the static table
`VERSION_ATTRIBUTES` imported from `scooby.knowledge` (a repository file not
present under src/). The spec describes it only as an external lookup table
from component identifier to non-standard version-attribute name, so it is
carried as an arbitrary parameter. -/
abbrev VTable := List (String × String)

/-- Python name of the type of a value, used in TypeError messages. -/
def pyTypeName : PyValue → String
  | PyValue.str _ => "str"
  | PyValue.module _ => "module"
  | PyValue.noneVal => "NoneType"
  | PyValue.intVal _ => "int"

/-- Whether the first list of characters is a prefix of the second
(an executable, kernel-reducible prefix test). -/
def startsWithChars : List Char → List Char → Bool
  | [], _ => true
  | _ :: _, [] => false
  | c :: cs, d :: ds => c = d && startsWithChars cs ds

/-- A dunder name in the sense of `mock._is_magic`: the test
`(brackets elided) __ + name[2:-2] + __ == name` holds exactly for names of
length at least 4 that start and end with a double underscore. -/
def isMagicName (a : String) : Bool :=
  4 ≤ a.data.length && startsWithChars ['_', '_'] a.data &&
    startsWithChars ['_', '_'] a.data.reverse

/-- Attribute names on which `mock.Mock.__getattr__` raises
`AttributeError` instead of auto-creating a child: dunder names and names
starting with `assert`/`assret`. -/
def mockExcluded (a : String) : Bool :=
  isMagicName a || startsWithChars ['a', 's', 's', 'e', 'r', 't'] a.data ||
    startsWithChars ['a', 's', 's', 'r', 'e', 't'] a.data

/-- Python `getattr` as this program uses it. On a genuine module,
`__name__` is always present and other attributes come from the module
attribute dict; on a `mock.Mock`, ordinary names auto-create a child value
and excluded names raise (`none`). -/
def getattr : Handle → String → Option PyObj
  | Handle.module m, a =>
    if a = "__name__" then Option.some (PyObj.str m.mod_name)
    else alookup m.attrs a
  | Handle.mock, a =>
    if mockExcluded a then Option.none else Option.some PyObj.mockAttr

/-- The mutable state touched by versions.py: the instance fields
`_packages`, `ncol`, `text_width`, plus the process-wide `sys.modules`
cache and the stream of warnings emitted through `logging`. -/
structure VState where
  packages : List (String × PyModule)
  ncol : Nat
  text_width : Nat
  sysModules : SysModules
  log : List LogMsg
deriving DecidableEq

/-- Model of `importlib.import_module`: a name already present in
`sys.modules` is returned from the cache, otherwise the import environment
is consulted; `none` is the `ImportError`/`ModuleNotFoundError` case.
(The caching of fresh successful imports into `sys.modules` by the import
machinery is not modelled; versions.py never observes it.) -/
def import_module (env : ImportEnv) (sysMods : SysModules) (name : String) :
    Option Handle :=
  match alookup sysMods name with
  | Option.some h => Option.some h
  | Option.none => (alookup env name).map Handle.module

namespace Versions

/-- `Versions._safe_import_by_name`: try to import; on failure emit the
`Could not import module` warning, substitute a `mock.Mock()` and install
it into `sys.modules` under the failed name. Never raises. -/
def _safe_import_by_name (env : ImportEnv) (st : VState) (name : String) :
    Handle × VState :=
  match import_module env st.sysModules name with
  | Option.some h => (h, st)
  | Option.none =>
      (Handle.mock,
       { st with
           log := st.log ++ [LogMsg.couldNotImport name],
           sysModules := dictInsert st.sysModules name Handle.mock })

/-- `Versions._add_package`: default the name to `module.__name__` when not
given as a string (on a mock this attribute access raises
`AttributeError`), reject non-modules with `TypeError`, then store the
module in `self._packages` under the name. -/
def _add_package (st : VState) (module : Handle) (name : Option String) :
    Except PyErr Unit × VState :=
  match name, module with
  | Option.some n, Handle.module m =>
      (Except.ok (), { st with packages := dictInsert st.packages n m })
  | Option.none, Handle.module m =>
      (Except.ok (), { st with packages := dictInsert st.packages m.mod_name m })
  | Option.some _, Handle.mock =>
      (Except.error (PyErr.typeError "Module passed is not a module."), st)
  | Option.none, Handle.mock =>
      (Except.error (PyErr.attributeError "Mock object has no attribute __name__"), st)

/-- `Versions._add_package_by_name`: import (safely), store the module
under the requested name unless the import produced a mock; returns whether
the package was stored. -/
def _add_package_by_name (env : ImportEnv) (st : VState) (name : String) :
    Except PyErr Bool × VState :=
  let r := Versions._safe_import_by_name env st name
  match r.1 with
  | Handle.module m =>
      match Versions._add_package r.2 (Handle.module m) (Option.some name) with
      | (Except.ok _, st1) => (Except.ok true, st1)
      | (Except.error e, st1) => (Except.error e, st1)
  | Handle.mock => (Except.ok false, r.2)

/-- The `for pckg in packages` loop body of `Versions.add_packages`:
strings are added by name, modules directly, `None` is skipped, and any
other element raises `TypeError` on the spot (leaving earlier additions in
place). -/
def addLoop (env : ImportEnv) : VState → List PyValue → Except PyErr Unit × VState
  | st, [] => (Except.ok (), st)
  | st, PyValue.str s :: rest =>
      match Versions._add_package_by_name env st s with
      | (Except.ok _, st1) => addLoop env st1 rest
      | (Except.error e, st1) => (Except.error e, st1)
  | st, PyValue.module m :: rest =>
      match Versions._add_package st (Handle.module m) Option.none with
      | (Except.ok _, st1) => addLoop env st1 rest
      | (Except.error e, st1) => (Except.error e, st1)
  | st, PyValue.noneVal :: rest => addLoop env st rest
  | st, PyValue.intVal n :: _ =>
      (Except.error (PyErr.typeError
        ("Cannot add package from type (" ++ pyTypeName (PyValue.intVal n) ++ ")")), st)

/-- `Versions.add_packages`: reject a non-list, non-tuple argument with
`TypeError` before touching any element, otherwise run the loop. -/
def add_packages (env : ImportEnv) (st : VState) (packages : PyArg) :
    Except PyErr Unit × VState :=
  match packages with
  | PyArg.notAList =>
      (Except.error (PyErr.typeError "You must pass a list of packages or package names."), st)
  | PyArg.pyList l => addLoop env st l

/-- The registered names in iteration order: `self._packages.keys()`
(the spec calls this `names()`). -/
def names (st : VState) : List String :=
  st.packages.map Prod.fst

/-- The first phase of `Versions.get_version` (comment in the source:
fetch the module and its name): a string is looked up in the registry and,
failing that, one-off imported safely; a module is used directly with its
own `__name__`; anything else raises `TypeError`. -/
def fetchModule (env : ImportEnv) (st : VState) (pckg : PyValue) :
    Except PyErr (String × Handle) × VState :=
  match pckg with
  | PyValue.str name =>
      match alookup st.packages name with
      | Option.some m => (Except.ok (name, Handle.module m), st)
      | Option.none =>
          let r := Versions._safe_import_by_name env st name
          (Except.ok (name, r.1), r.2)
  | PyValue.module m => (Except.ok (m.mod_name, Handle.module m), st)
  | PyValue.noneVal =>
      (Except.error (PyErr.typeError
        ("Cannot fetch version from type (" ++ pyTypeName PyValue.noneVal ++ ")")), st)
  | PyValue.intVal n =>
      (Except.error (PyErr.typeError
        ("Cannot fetch version from type (" ++ pyTypeName (PyValue.intVal n) ++ ")")), st)

/-- The second phase of `Versions.get_version`: consult
`VERSION_ATTRIBUTES` and read that attribute off the module (`KeyError`
and `AttributeError` both fall through), then the conventional
`__version__`, and finally warn and produce the `unknown` sentinel. -/
def versionFromModule (table : VTable) (st : VState) (name : String) (h : Handle) :
    Except PyErr PyObj × VState :=
  match (alookup table name).bind (fun a => getattr h a) with
  | Option.some v => (Except.ok v, st)
  | Option.none =>
      match getattr h "__version__" with
      | Option.some v => (Except.ok v, st)
      | Option.none =>
          (Except.ok (PyObj.str "unknown"),
           { st with log := st.log ++ [LogMsg.versionUnknown name] })

/-- `Versions.get_version`: the two phases composed. -/
def get_version (env : ImportEnv) (table : VTable) (st : VState) (pckg : PyValue) :
    Except PyErr PyObj × VState :=
  match Versions.fetchModule env st pckg with
  | (Except.ok (name, h), st1) => Versions.versionFromModule table st1 name h
  | (Except.error e, st1) => (Except.error e, st1)

/-- The argument scrub in `Versions.__init__`:
`lambda x: [] if x is None or len(x) < 1 else list(x)`. -/
def safety (x : Option (List PyValue)) : List PyValue :=
  match x with
  | Option.none => []
  | Option.some l => if l.length < 1 then [] else l

/-- `Versions.__init__`: store `ncol` and `text_width`, start from an empty
registry, and add the core, optional and additional lists in that order.
The ambient `sys.modules` cache and warning log are taken as inputs; an
exception from any of the three `add_packages` calls propagates. -/
def init (env : ImportEnv) (core optional additional : Option (List PyValue))
    (ncol text_width : Nat) (sysMods0 : SysModules) (log0 : List LogMsg) :
    Except PyErr Unit × VState :=
  let st0 : VState := ⟨[], ncol, text_width, sysMods0, log0⟩
  match Versions.add_packages env st0 (PyArg.pyList (Versions.safety core)) with
  | (Except.ok _, st1) =>
      match Versions.add_packages env st1 (PyArg.pyList (Versions.safety optional)) with
      | (Except.ok _, st2) =>
          Versions.add_packages env st2 (PyArg.pyList (Versions.safety additional))
      | (Except.error e, st2) => (Except.error e, st2)
  | (Except.error e, st1) => (Except.error e, st1)

end Versions

/-- Splitting one run of non-whitespace characters into pieces of at most
`w` characters, as `textwrap`'s long-word breaking does (fuel-driven; the
fuel is instantiated with the length of the run). -/
def chunksOfAux (w : Nat) : Nat → List Char → List (List Char)
  | _, [] => []
  | 0, _ :: _ => []
  | fuel + 1, c :: cs => (c :: cs).take w :: chunksOfAux w fuel ((c :: cs).drop w)

/-- Split a character run into pieces of at most `w` characters. -/
def chunksOf (w : Nat) (l : List Char) : List (List Char) :=
  chunksOfAux w l.length l

/-- Greedy line filling at width `w`: words are packed into the current
line separated by single spaces while they fit, and a word that does not
fit starts a new line. Every supplied word is assumed (and, in `pyWrap`,
arranged) to be at most `w` characters long. -/
def greedyWrap (w : Nat) : List Char → List (List Char) → List (List Char)
  | cur, [] => if cur.isEmpty then [] else [cur]
  | cur, word :: rest =>
    if cur.isEmpty then greedyWrap w word rest
    else if cur.length + 1 + word.length ≤ w then
      greedyWrap w (cur ++ ' ' :: word) rest
    else
      cur :: greedyWrap w word rest

/-- Split a character sequence into maximal whitespace-free words
(the accumulator holds the current word reversed). -/
def splitWordsAux : List Char → List Char → List (List Char)
  | [], acc => if acc.isEmpty then [] else [acc.reverse]
  | c :: cs, acc =>
      if c.isWhitespace then
        if acc.isEmpty then splitWordsAux cs []
        else acc.reverse :: splitWordsAux cs []
      else splitWordsAux cs (c :: acc)

/-- Model of `textwrap.wrap(s, w)` with its default settings: collapse
whitespace into word boundaries, break words longer than `w`, and fill
lines greedily so that no produced line exceeds `w` characters. -/
def pyWrap (w : Nat) (s : String) : List (List Char) :=
  let ws := splitWordsAux s.data []
  greedyWrap w [] (ws.map (chunksOf w)).flatten

namespace Versions

/-- The lines produced by the `Versions.sys_version` property: the host
`sys.version` string wrapped by `textwrap.wrap` to `text_width - 4`
columns, each line prefixed with two spaces. `textwrap.wrap` raises
`ValueError` for a non-positive width (that is, `text_width <= 4`), in
which case no lines are produced (`none`). -/
def sysVersionLines (sysVersionStr : String) (text_width : Nat) :
    Option (List String) :=
  if text_width - 4 = 0 then Option.none
  else
    Option.some ((pyWrap (text_width - 4) sysVersionStr).map
      (fun l => "  " ++ String.mk l))

/-- The `Versions.sys_version` property: a leading newline, then each
wrapped, two-space-indented line terminated by a newline. -/
def sys_version (sysVersionStr : String) (text_width : Nat) : Option String :=
  (Versions.sysVersionLines sysVersionStr text_width).map
    (fun ls => ls.foldl (fun text txt => text ++ txt ++ "\n") "\n")

end Versions

/-- Whether a string identifier resolves to a genuine module at
construction time, judged against the ambient module cache `sm0` and
the import environment: a cached genuine module resolves, a cached mock does
not, and an uncached name resolves exactly when the environment can import
it. (During construction the cache only ever gains mock entries for
unimportable names, so this judgement is stable across the three add
calls.) -/
def resolvesOK (env : ImportEnv) (sm0 : SysModules) (s : String) : Bool :=
  match alookup sm0 s with
  | Option.some (Handle.module _) => true
  | Option.some Handle.mock => false
  | Option.none => (alookup env s).isSome

/-- The registry key contributed by a construction-list element when it is
successfully resolved: a resolving string contributes itself, a module
handle contributes its `__name__`, everything else contributes nothing. -/
def successName (env : ImportEnv) (sm0 : SysModules) : PyValue → Option String
  | PyValue.str s => if resolvesOK env sm0 s then Option.some s else Option.none
  | PyValue.module m => Option.some m.mod_name
  | PyValue.noneVal => Option.none
  | PyValue.intVal _ => Option.none

/-- An element type `add_packages` accepts without raising. -/
def validElem : PyValue → Bool
  | PyValue.intVal _ => false
  | _ => true

/-- First-occurrence deduplication: keeps the first copy of each element,
in order of first appearance. -/
def firstOccur (l : List String) : List String :=
  l.foldl (fun acc n => if n ∈ acc then acc else acc ++ [n]) []

/-- The module cache `sm` extends the ambient cache `sm0` only with mock
entries for names that neither the ambient cache nor the import
environment supplies, which is the only way versions.py writes it. -/
def mockOnlyExtends (env : ImportEnv) (sm0 sm : SysModules) : Prop :=
  ∀ n, alookup sm n = alookup sm0 n ∨
    (alookup sm n = Option.some Handle.mock ∧ alookup sm0 n = Option.none ∧
     alookup env n = Option.none)

/-- A concrete empty-registry state (default `ncol` 4, `text_width` 54,
empty module cache, empty log). -/
def emptyState : VState := ⟨[], 4, 54, [], []⟩

/-- A concrete module carrying both an overridden version attribute and
the conventional one. -/
def vtkModule : PyModule :=
  ⟨"vtk", [("VTK_VERSION", PyObj.str "9.0"), ("__version__", PyObj.str "0.0")]⟩

/-- A concrete importable module exposing the conventional attribute. -/
def numpyModule : PyModule := ⟨"numpy", [("__version__", PyObj.str "1.24.0")]⟩

/-- A concrete import environment in which only `numpy` is importable. -/
def demoEnv : ImportEnv := [("numpy", numpyModule)]

/-! Association-list facts used to reason about the registry and about
`sys.modules`. -/

theorem alookup_isSome_iff_mem {α : Type} (d : List (String × α)) (k : String) :
    (alookup d k).isSome = true ↔ k ∈ d.map Prod.fst := by
  induction d with
  | nil => simp [alookup]
  | cons p rest ih =>
      by_cases hk : p.1 = k
      · cases p; simp_all [alookup]
      · cases p; simp_all [alookup, Ne.symm hk]

theorem alookup_eq_none_iff_not_mem {α : Type} (d : List (String × α)) (k : String) :
    alookup d k = Option.none ↔ k ∉ d.map Prod.fst := by
  rw [← alookup_isSome_iff_mem]
  cases alookup d k <;> simp

theorem names_dictInsert {α : Type} (d : List (String × α)) (k : String) (v : α) :
    (dictInsert d k v).map Prod.fst =
      if k ∈ d.map Prod.fst then d.map Prod.fst else d.map Prod.fst ++ [k] := by
  induction d with
  | nil => simp [dictInsert]
  | cons p rest ih =>
      cases p with
      | mk a b =>
        by_cases hp : a = k
        · subst hp; simp [dictInsert]
        · by_cases hm : k ∈ rest.map Prod.fst
          · simp [dictInsert, hp, hm, ih, Ne.symm hp]
          · simp [dictInsert, hp, hm, ih, Ne.symm hp]

theorem alookup_dictInsert_self {α : Type} (d : List (String × α)) (k : String) (v : α) :
    alookup (dictInsert d k v) k = Option.some v := by
  induction d with
  | nil => simp [dictInsert, alookup]
  | cons p rest ih =>
      cases p with
      | mk a b =>
        by_cases hp : a = k
        · subst hp; simp [dictInsert, alookup]
        · simp [dictInsert, alookup, hp, ih]

theorem alookup_dictInsert_ne {α : Type} (d : List (String × α)) (k k' : String) (v : α)
    (hne : k' ≠ k) : alookup (dictInsert d k v) k' = alookup d k' := by
  induction d with
  | nil => simp [dictInsert, alookup, Ne.symm hne]
  | cons p rest ih =>
      cases p with
      | mk a b =>
        by_cases hp : a = k
        · subst hp
          simp [dictInsert, alookup, Ne.symm hne]
        · simp [dictInsert, alookup, hp, ih]

/-! Frame facts: which parts of the state each operation can touch. -/

theorem safe_import_frame (env : ImportEnv) (st : VState) (name : String) :
    ((Versions._safe_import_by_name env st name).2).packages = st.packages ∧
    ((Versions._safe_import_by_name env st name).2).ncol = st.ncol ∧
    ((Versions._safe_import_by_name env st name).2).text_width = st.text_width := by
  unfold Versions._safe_import_by_name
  cases import_module env st.sysModules name <;> simp

theorem versionFromModule_frame (table : VTable) (st : VState) (name : String)
    (h : Handle) :
    ((Versions.versionFromModule table st name h).2).packages = st.packages ∧
    ((Versions.versionFromModule table st name h).2).ncol = st.ncol ∧
    ((Versions.versionFromModule table st name h).2).text_width = st.text_width := by
  unfold Versions.versionFromModule
  cases (alookup table name).bind (fun a => getattr h a) with
  | some v => simp
  | none => cases getattr h "__version__" <;> simp

theorem versionFromModule_ok (table : VTable) (st : VState) (name : String)
    (h : Handle) :
    ∃ v, (Versions.versionFromModule table st name h).1 = Except.ok v := by
  cases hb : (alookup table name).bind (fun a => getattr h a) with
  | some v => exact ⟨v, by simp only [Versions.versionFromModule, hb]⟩
  | none =>
      cases hv : getattr h "__version__" with
      | some v => exact ⟨v, by simp only [Versions.versionFromModule, hb, hv]⟩
      | none =>
          exact ⟨PyObj.str "unknown", by simp only [Versions.versionFromModule, hb, hv]⟩

theorem fetchModule_frame (env : ImportEnv) (st : VState) (pckg : PyValue) :
    ((Versions.fetchModule env st pckg).2).packages = st.packages ∧
    ((Versions.fetchModule env st pckg).2).ncol = st.ncol ∧
    ((Versions.fetchModule env st pckg).2).text_width = st.text_width := by
  cases pckg with
  | str s =>
      cases hp : alookup st.packages s with
      | some m => simp [Versions.fetchModule, hp]
      | none =>
          simp only [Versions.fetchModule, hp]
          exact safe_import_frame env st s
  | module m => simp [Versions.fetchModule]
  | noneVal => simp [Versions.fetchModule]
  | intVal n => simp [Versions.fetchModule]

/-- C5: `get_version` reads the registry but never writes it: for every
input, the packages mapping and the `ncol` and `text_width` configuration
are unchanged, so a best-effort one-off resolution of an unregistered name
is never persisted back into the registry. -/
theorem get_version_preserves_registry (env : ImportEnv) (table : VTable)
    (st : VState) (pckg : PyValue) :
    ((Versions.get_version env table st pckg).2).packages = st.packages ∧
    ((Versions.get_version env table st pckg).2).ncol = st.ncol ∧
    ((Versions.get_version env table st pckg).2).text_width = st.text_width := by
  have hf := fetchModule_frame env st pckg
  unfold Versions.get_version
  cases hres : Versions.fetchModule env st pckg with
  | mk r st1 =>
      rw [hres] at hf
      cases r with
      | ok p =>
          cases p with
          | mk name h =>
              have hv := versionFromModule_frame table st1 name h
              simp only [hv.1, hv.2.1, hv.2.2]
              exact ⟨hf.1, hf.2.1, hf.2.2⟩
      | error e => exact ⟨hf.1, hf.2.1, hf.2.2⟩

/-- C1: for every input that `get_version` accepts (a string name or a
module handle, resolved by the first phase to handle `h` under identifier
`name`), the returned value follows the strict fallback order: the
attribute named by the `VERSION_ATTRIBUTES` override table when the table
contains the name and the handle has that attribute (preferred over the
conventional attribute even when both exist); otherwise the conventional
`__version__` attribute when present; otherwise a warning-level diagnostic
naming the identifier is logged and exactly the sentinel `unknown` is
returned. -/
theorem get_version_fallback_order (env : ImportEnv) (table : VTable)
    (st st1 : VState) (pckg : PyValue) (name : String) (h : Handle)
    (hf : Versions.fetchModule env st pckg = (Except.ok (name, h), st1)) :
    (∀ a v, alookup table name = Option.some a → getattr h a = Option.some v →
        Versions.get_version env table st pckg = (Except.ok v, st1)) ∧
    ((alookup table name).bind (fun a => getattr h a) = Option.none →
        ∀ v, getattr h "__version__" = Option.some v →
          Versions.get_version env table st pckg = (Except.ok v, st1)) ∧
    ((alookup table name).bind (fun a => getattr h a) = Option.none →
        getattr h "__version__" = Option.none →
          Versions.get_version env table st pckg =
            (Except.ok (PyObj.str "unknown"),
             { st1 with log := st1.log ++ [LogMsg.versionUnknown name] })) := by
  have hg : Versions.get_version env table st pckg =
      Versions.versionFromModule table st1 name h := by
    simp only [Versions.get_version, hf]
  refine ⟨?_, ?_, ?_⟩
  · intro a v ha hv
    have hb : (alookup table name).bind (fun a => getattr h a) = Option.some v := by
      rw [ha]; exact hv
    rw [hg]
    simp only [Versions.versionFromModule, hb]
  · intro hb v hv
    rw [hg]
    simp only [Versions.versionFromModule, hb, hv]
  · intro hb hv
    rw [hg]
    simp only [Versions.versionFromModule, hb, hv]

/-- Witness for C1: on a handle carrying both the overridden attribute and
`__version__`, the override wins. -/
theorem get_version_fallback_order_witness :
    Versions.get_version [] [("vtk", "VTK_VERSION")] emptyState
        (PyValue.module vtkModule) =
      (Except.ok (PyObj.str "9.0"), emptyState) :=
  (get_version_fallback_order [] [("vtk", "VTK_VERSION")] emptyState emptyState
      (PyValue.module vtkModule) "vtk" (Handle.module vtkModule) (by decide)).1
    "VTK_VERSION" (PyObj.str "9.0") (by decide) (by decide)

/-- C2 counterexample: the identifier `vtk` cannot be imported (empty
environment) and the override table names `VTK_VERSION` for it;
`get_version` then reads that attribute off the substituted `mock.Mock`,
which auto-creates it, so the call returns the mock attribute value - not
the sentinel string `unknown` that the claim promises for an absent
component. -/
theorem get_version_absent_not_unknown_cex :
    (Versions.get_version [] [("vtk", "VTK_VERSION")] emptyState
        (PyValue.str "vtk")).1 = Except.ok PyObj.mockAttr ∧
    Except.ok PyObj.mockAttr ≠
      (Except.ok (PyObj.str "unknown") : Except PyErr PyObj) := by
  decide

/-- C2 (amended): `get_version` raises only for an input that is neither a
string nor a module, and then with a `TypeError`; a string or module input
never raises. Absence of the component or of a version attribute degrades
to the sentinel `unknown` after diagnostics whenever the override table
does not name an attribute that the substituted mock auto-creates; when
the table does name such an attribute for an unimportable name, the mock
attribute value is returned instead of the sentinel. -/
theorem get_version_error_contract (env : ImportEnv) (table : VTable)
    (st : VState) :
    (∀ n, (Versions.get_version env table st (PyValue.intVal n)).1 =
        Except.error (PyErr.typeError "Cannot fetch version from type (int)")) ∧
    ((Versions.get_version env table st PyValue.noneVal).1 =
        Except.error (PyErr.typeError "Cannot fetch version from type (NoneType)")) ∧
    (∀ s, ∃ v, (Versions.get_version env table st (PyValue.str s)).1 = Except.ok v) ∧
    (∀ m, ∃ v, (Versions.get_version env table st (PyValue.module m)).1 = Except.ok v) ∧
    (∀ s, alookup st.packages s = Option.none →
        alookup st.sysModules s = Option.none →
        alookup env s = Option.none →
        (alookup table s).bind (fun a => getattr Handle.mock a) = Option.none →
        Versions.get_version env table st (PyValue.str s) =
          (Except.ok (PyObj.str "unknown"),
           { st with
               log := st.log ++ [LogMsg.couldNotImport s, LogMsg.versionUnknown s],
               sysModules := dictInsert st.sysModules s Handle.mock })) := by
  refine ⟨fun n => ?_, ?_, fun s => ?_, fun m => ?_, fun s hpk hsm himp htab => ?_⟩
  · simp [Versions.get_version, Versions.fetchModule, pyTypeName]
  · simp [Versions.get_version, Versions.fetchModule, pyTypeName]
  · cases hp : alookup st.packages s with
    | some m =>
        have hg : Versions.get_version env table st (PyValue.str s) =
            Versions.versionFromModule table st s (Handle.module m) := by
          simp only [Versions.get_version, Versions.fetchModule, hp]
        rw [hg]
        exact versionFromModule_ok table st s (Handle.module m)
    | none =>
        have hg : Versions.get_version env table st (PyValue.str s) =
            Versions.versionFromModule table
              (Versions._safe_import_by_name env st s).2 s
              (Versions._safe_import_by_name env st s).1 := by
          simp only [Versions.get_version, Versions.fetchModule, hp]
        rw [hg]
        exact versionFromModule_ok table _ s _
  · have hg : Versions.get_version env table st (PyValue.module m) =
        Versions.versionFromModule table st m.mod_name (Handle.module m) := by
      simp only [Versions.get_version, Versions.fetchModule]
    rw [hg]
    exact versionFromModule_ok table st m.mod_name (Handle.module m)
  · have hmv : getattr Handle.mock "__version__" = Option.none := by decide
    have him : import_module env st.sysModules s = Option.none := by
      unfold import_module
      rw [hsm, himp]
      rfl
    have hsi : Versions._safe_import_by_name env st s =
        (Handle.mock,
         { st with
             log := st.log ++ [LogMsg.couldNotImport s],
             sysModules := dictInsert st.sysModules s Handle.mock }) := by
      simp only [Versions._safe_import_by_name, him]
    have hg : Versions.get_version env table st (PyValue.str s) =
        Versions.versionFromModule table
          { st with
              log := st.log ++ [LogMsg.couldNotImport s],
              sysModules := dictInsert st.sysModules s Handle.mock } s Handle.mock := by
      simp only [Versions.get_version, Versions.fetchModule, hpk, hsi]
    rw [hg]
    simp only [Versions.versionFromModule, htab, hmv]
    simp [List.append_assoc]

/-- Witness for the amended C2 at the unimportable name `zzz` with an
empty override table: no raise, the sentinel is returned, the warning and
the mock cache entry appear. -/
theorem get_version_error_contract_witness :
    Versions.get_version demoEnv [] emptyState (PyValue.str "zzz") =
      (Except.ok (PyObj.str "unknown"),
       { emptyState with
           log := [LogMsg.couldNotImport "zzz", LogMsg.versionUnknown "zzz"],
           sysModules := [("zzz", Handle.mock)] }) :=
  (get_version_error_contract demoEnv [] emptyState).2.2.2.2 "zzz"
    (by decide) (by decide) (by decide) (by decide)

/-! Behaviour of `_add_package_by_name`: it never raises; it stores the
module under the requested name on success and stores nothing on a
mocked import. -/

theorem _add_package_by_name_mock (env : ImportEnv) (st : VState) (s : String)
    (h : (Versions._safe_import_by_name env st s).1 = Handle.mock) :
    Versions._add_package_by_name env st s =
      (Except.ok false, (Versions._safe_import_by_name env st s).2) := by
  simp only [Versions._add_package_by_name, h]

theorem _add_package_by_name_module (env : ImportEnv) (st : VState) (s : String)
    (m : PyModule) (h : (Versions._safe_import_by_name env st s).1 = Handle.module m) :
    Versions._add_package_by_name env st s =
      (Except.ok true,
       { (Versions._safe_import_by_name env st s).2 with
           packages :=
             dictInsert ((Versions._safe_import_by_name env st s).2).packages s m }) := by
  simp only [Versions._add_package_by_name, h, Versions._add_package]

theorem _add_package_by_name_no_raise (env : ImportEnv) (st : VState) (s : String) :
    ∃ b st1, Versions._add_package_by_name env st s = (Except.ok b, st1) := by
  cases h : (Versions._safe_import_by_name env st s).1 with
  | module m => exact ⟨true, _, _add_package_by_name_module env st s m h⟩
  | mock => exact ⟨false, _, _add_package_by_name_mock env st s h⟩

theorem safe_import_of_absent (env : ImportEnv) (st : VState) (name : String)
    (hsm : alookup st.sysModules name = Option.none)
    (himp : alookup env name = Option.none) :
    Versions._safe_import_by_name env st name =
      (Handle.mock,
       { st with
           log := st.log ++ [LogMsg.couldNotImport name],
           sysModules := dictInsert st.sysModules name Handle.mock }) := by
  have him : import_module env st.sysModules name = Option.none := by
    unfold import_module
    rw [hsm, himp]
    rfl
  simp only [Versions._safe_import_by_name, him]

/-- C3: a string element of an `add_packages` list whose import fails does
not raise and does not abort the loop: the loop continues on the remaining
elements against a state that gained only the warning naming the
identifier and the mock cache entry - in particular nothing is stored
under that name, so `names()` does not acquire it. -/
theorem add_failing_name_continues (env : ImportEnv) (st : VState)
    (name : String) (rest : List PyValue)
    (hsm : alookup st.sysModules name = Option.none)
    (himp : alookup env name = Option.none) :
    Versions.addLoop env st (PyValue.str name :: rest) =
      Versions.addLoop env
        { st with
            log := st.log ++ [LogMsg.couldNotImport name],
            sysModules := dictInsert st.sysModules name Handle.mock } rest ∧
    (alookup st.packages name = Option.none →
      name ∉ Versions.names
        { st with
            log := st.log ++ [LogMsg.couldNotImport name],
            sysModules := dictInsert st.sysModules name Handle.mock }) := by
  have hsi := safe_import_of_absent env st name hsm himp
  have hmk : (Versions._safe_import_by_name env st name).1 = Handle.mock := by
    rw [hsi]
  have habn := _add_package_by_name_mock env st name hmk
  rw [hsi] at habn
  constructor
  · simp only [Versions.addLoop, habn]
  · intro hpk
    exact (alookup_eq_none_iff_not_mem st.packages name).1 hpk

/-- Witness for C3: adding the unimportable `zzz` continues with the rest
of the list against the state carrying the warning and the mock. -/
theorem add_failing_name_continues_witness :
    Versions.addLoop demoEnv emptyState [PyValue.str "zzz", PyValue.str "numpy"] =
      Versions.addLoop demoEnv
        { emptyState with
            log := [LogMsg.couldNotImport "zzz"],
            sysModules := [("zzz", Handle.mock)] }
        [PyValue.str "numpy"] :=
  (add_failing_name_continues demoEnv emptyState "zzz" [PyValue.str "numpy"]
      (by decide) (by decide)).1

/-- C10: whenever an import attempt fails - inside `_safe_import_by_name`,
hence both during `add_packages` and during a `get_version` one-off
resolution - a mock stub is installed into the process-wide `sys.modules`
cache under the failed name, while the registry itself never receives the
stub. -/
theorem failed_import_installs_mock (env : ImportEnv) (table : VTable)
    (st : VState) (name : String) :
    (alookup st.sysModules name = Option.none → alookup env name = Option.none →
      (Versions._safe_import_by_name env st name).1 = Handle.mock ∧
      alookup ((Versions._safe_import_by_name env st name).2).sysModules name =
        Option.some Handle.mock ∧
      ((Versions._safe_import_by_name env st name).2).packages = st.packages) ∧
    (alookup st.sysModules name = Option.none → alookup env name = Option.none →
      alookup ((Versions.add_packages env st
          (PyArg.pyList [PyValue.str name])).2).sysModules name =
        Option.some Handle.mock ∧
      ((Versions.add_packages env st (PyArg.pyList [PyValue.str name])).2).packages =
        st.packages) ∧
    (alookup st.sysModules name = Option.none → alookup env name = Option.none →
      alookup st.packages name = Option.none →
      alookup ((Versions.get_version env table st
          (PyValue.str name)).2).sysModules name = Option.some Handle.mock) := by
  refine ⟨fun hsm himp => ?_, fun hsm himp => ?_, fun hsm himp hpk => ?_⟩
  · have hsi := safe_import_of_absent env st name hsm himp
    rw [hsi]
    exact ⟨rfl, alookup_dictInsert_self st.sysModules name Handle.mock, rfl⟩
  · have hsi := safe_import_of_absent env st name hsm himp
    have hmk : (Versions._safe_import_by_name env st name).1 = Handle.mock := by
      rw [hsi]
    have habn := _add_package_by_name_mock env st name hmk
    rw [hsi] at habn
    have hloop : Versions.add_packages env st (PyArg.pyList [PyValue.str name]) =
        (Except.ok (),
         { st with
             log := st.log ++ [LogMsg.couldNotImport name],
             sysModules := dictInsert st.sysModules name Handle.mock }) := by
      simp only [Versions.add_packages, Versions.addLoop, habn]
    rw [hloop]
    exact ⟨alookup_dictInsert_self st.sysModules name Handle.mock, rfl⟩
  · have hsi := safe_import_of_absent env st name hsm himp
    have hg : Versions.get_version env table st (PyValue.str name) =
        Versions.versionFromModule table
          { st with
              log := st.log ++ [LogMsg.couldNotImport name],
              sysModules := dictInsert st.sysModules name Handle.mock } name
          Handle.mock := by
      simp only [Versions.get_version, Versions.fetchModule, hpk, hsi]
    rw [hg]
    cases hb : (alookup table name).bind (fun a => getattr Handle.mock a) with
    | some v =>
        simp only [Versions.versionFromModule, hb]
        exact alookup_dictInsert_self st.sysModules name Handle.mock
    | none =>
        have hmv : getattr Handle.mock "__version__" = Option.none := by decide
        simp only [Versions.versionFromModule, hb, hmv]
        exact alookup_dictInsert_self st.sysModules name Handle.mock

/-- Witness for C10 at the unimportable name `zzz`. -/
theorem failed_import_installs_mock_witness :
    alookup ((Versions.add_packages demoEnv emptyState
        (PyArg.pyList [PyValue.str "zzz"])).2).sysModules "zzz" =
      Option.some Handle.mock ∧
    ((Versions.add_packages demoEnv emptyState
        (PyArg.pyList [PyValue.str "zzz"])).2).packages = emptyState.packages :=
  (failed_import_installs_mock demoEnv [] emptyState "zzz").2.1
    (by decide) (by decide)

/-- C6: an `add_packages` element that is neither a string, nor a module,
nor `None` raises a `TypeError`: any list containing such an element makes
the call raise; at the offending element the loop stops with the state
exactly as it was when the element was reached (nothing is silently added
for it); and the `None` marker itself is skipped silently. -/
theorem add_packages_invalid_element (env : ImportEnv) :
    (∀ (st : VState) (l : List PyValue), (∃ n, PyValue.intVal n ∈ l) →
      ∃ msg, (Versions.addLoop env st l).1 = Except.error (PyErr.typeError msg)) ∧
    (∀ (st : VState) (n : Int) (rest : List PyValue),
      Versions.addLoop env st (PyValue.intVal n :: rest) =
        (Except.error (PyErr.typeError "Cannot add package from type (int)"), st)) ∧
    (∀ (st : VState) (rest : List PyValue),
      Versions.addLoop env st (PyValue.noneVal :: rest) =
        Versions.addLoop env st rest) := by
  have hmsg : ∀ n : Int,
      "Cannot add package from type (" ++ pyTypeName (PyValue.intVal n) ++ ")" =
        "Cannot add package from type (int)" := fun _ => rfl
  refine ⟨?_, fun st n rest => ?_, fun st rest => ?_⟩
  · intro st l
    induction l generalizing st with
    | nil => rintro ⟨n, hn⟩; cases hn
    | cons p rest ih =>
        rintro ⟨n, hn⟩
        cases p with
        | str s =>
            obtain ⟨b, st1, hb⟩ := _add_package_by_name_no_raise env st s
            have hstep : Versions.addLoop env st (PyValue.str s :: rest) =
                Versions.addLoop env st1 rest := by
              simp only [Versions.addLoop, hb]
            rw [hstep]
            refine ih st1 ⟨n, ?_⟩
            rcases List.mem_cons.1 hn with h1 | h2
            · cases h1
            · exact h2
        | module m =>
            have hstep : Versions.addLoop env st (PyValue.module m :: rest) =
                Versions.addLoop env
                  { st with packages := dictInsert st.packages m.mod_name m } rest := by
              simp only [Versions.addLoop, Versions._add_package]
            rw [hstep]
            refine ih _ ⟨n, ?_⟩
            rcases List.mem_cons.1 hn with h1 | h2
            · cases h1
            · exact h2
        | noneVal =>
            have hstep : Versions.addLoop env st (PyValue.noneVal :: rest) =
                Versions.addLoop env st rest := by
              simp only [Versions.addLoop]
            rw [hstep]
            refine ih st ⟨n, ?_⟩
            rcases List.mem_cons.1 hn with h1 | h2
            · cases h1
            · exact h2
        | intVal k =>
            exact ⟨"Cannot add package from type (" ++ pyTypeName (PyValue.intVal k) ++ ")",
              by simp only [Versions.addLoop]⟩
  · have := hmsg n
    simp only [Versions.addLoop, this]
  · simp only [Versions.addLoop]

/-- Witness for C6 on a list containing the integer element `42`. -/
theorem add_packages_invalid_element_witness :
    ∃ msg, (Versions.addLoop demoEnv emptyState
        [PyValue.str "numpy", PyValue.intVal 42]).1 =
      Except.error (PyErr.typeError msg) :=
  (add_packages_invalid_element demoEnv).1 emptyState
    [PyValue.str "numpy", PyValue.intVal 42] ⟨42, by decide⟩

/-- C9: `add_packages` is not atomic on element-type errors: when the
elements before the invalid one all process successfully, the call raises
`TypeError` with the state exactly as the valid prefix left it (no
rollback) and without processing the elements after the invalid one;
whereas a non-list, non-tuple top-level argument raises before any element
is processed, leaving the state untouched. -/
theorem add_packages_not_atomic (env : ImportEnv) :
    (∀ (st : VState) (pre : List PyValue) (n : Int) (rest : List PyValue),
      (Versions.addLoop env st pre).1 = Except.ok () →
      Versions.addLoop env st (pre ++ PyValue.intVal n :: rest) =
        (Except.error (PyErr.typeError "Cannot add package from type (int)"),
         (Versions.addLoop env st pre).2)) ∧
    (∀ st : VState, Versions.add_packages env st PyArg.notAList =
      (Except.error
        (PyErr.typeError "You must pass a list of packages or package names."), st)) := by
  constructor
  · intro st pre
    induction pre generalizing st with
    | nil =>
        intro n rest _
        exact (add_packages_invalid_element env).2.1 st n rest
    | cons p pre1 ih =>
        intro n rest hok
        cases p with
        | str s =>
            obtain ⟨b, st1, hb⟩ := _add_package_by_name_no_raise env st s
            have hstep : ∀ tail, Versions.addLoop env st (PyValue.str s :: tail) =
                Versions.addLoop env st1 tail := fun tail => by
              simp only [Versions.addLoop, hb]
            rw [hstep] at hok
            rw [List.cons_append, hstep, hstep, ih st1 n rest hok]
        | module m =>
            have hstep : ∀ tail, Versions.addLoop env st (PyValue.module m :: tail) =
                Versions.addLoop env
                  { st with packages := dictInsert st.packages m.mod_name m } tail :=
              fun tail => by simp only [Versions.addLoop, Versions._add_package]
            rw [hstep] at hok
            rw [List.cons_append, hstep, hstep, ih _ n rest hok]
        | noneVal =>
            have hstep : ∀ tail, Versions.addLoop env st (PyValue.noneVal :: tail) =
                Versions.addLoop env st tail := fun tail => by
              simp only [Versions.addLoop]
            rw [hstep] at hok
            rw [List.cons_append, hstep, hstep, ih st n rest hok]
        | intVal k =>
            rw [(add_packages_invalid_element env).2.1 st k pre1] at hok
            cases hok
  · intro st
    rfl

/-- Witness for C9: a valid prefix, then `42`, then an unprocessed valid
name: the prefix entry stays, the error is raised, the suffix never runs. -/
theorem add_packages_not_atomic_witness :
    Versions.addLoop demoEnv emptyState
        [PyValue.str "numpy", PyValue.intVal 42, PyValue.str "zzz"] =
      (Except.error (PyErr.typeError "Cannot add package from type (int)"),
       (Versions.addLoop demoEnv emptyState [PyValue.str "numpy"]).2) :=
  (add_packages_not_atomic demoEnv).1 emptyState [PyValue.str "numpy"] 42
    [PyValue.str "zzz"] (by decide)

theorem dictInsert_idem {α : Type} (d : List (String × α)) (k : String) (v : α) :
    dictInsert (dictInsert d k v) k v = dictInsert d k v := by
  induction d with
  | nil => simp [dictInsert]
  | cons p rest ih =>
      cases p with
      | mk a b =>
        by_cases hp : a = k
        · subst hp; simp [dictInsert]
        · simp [dictInsert, hp, ih]

/-- C7: adding the same importable name twice is idempotent: the second
call returns the exact state of the first (so the registry holds exactly
one entry for that name), and the version resolved after the double add
equals the version resolved after a single add. -/
theorem add_twice_idempotent (env : ImportEnv) (table : VTable) (st : VState)
    (s : String) (m : PyModule)
    (himp : alookup env s = Option.some m)
    (hsm : alookup st.sysModules s = Option.none)
    (hpk : alookup st.packages s = Option.none) :
    (Versions.add_packages env st (PyArg.pyList [PyValue.str s])).1 = Except.ok () ∧
    Versions.add_packages env
        ((Versions.add_packages env st (PyArg.pyList [PyValue.str s])).2)
        (PyArg.pyList [PyValue.str s]) =
      (Except.ok (), (Versions.add_packages env st (PyArg.pyList [PyValue.str s])).2) ∧
    List.count s
        (Versions.names ((Versions.add_packages env st
          (PyArg.pyList [PyValue.str s])).2)) = 1 ∧
    Versions.get_version env table
        ((Versions.add_packages env
            ((Versions.add_packages env st (PyArg.pyList [PyValue.str s])).2)
            (PyArg.pyList [PyValue.str s])).2) (PyValue.str s) =
      Versions.get_version env table
        ((Versions.add_packages env st (PyArg.pyList [PyValue.str s])).2)
        (PyValue.str s) := by
  have hadd : ∀ st' : VState, alookup st'.sysModules s = Option.none →
      Versions.add_packages env st' (PyArg.pyList [PyValue.str s]) =
        (Except.ok (), { st' with packages := dictInsert st'.packages s m }) := by
    intro st' hsm'
    have him : import_module env st'.sysModules s = Option.some (Handle.module m) := by
      unfold import_module
      rw [hsm', himp]
      rfl
    have hsi : Versions._safe_import_by_name env st' s = (Handle.module m, st') := by
      simp only [Versions._safe_import_by_name, him]
    have hmd : (Versions._safe_import_by_name env st' s).1 = Handle.module m := by
      rw [hsi]
    have habn := _add_package_by_name_module env st' s m hmd
    rw [hsi] at habn
    simp only [Versions.add_packages, Versions.addLoop, habn]
  have h1 := hadd st hsm
  have hst1sm : ({ st with packages := dictInsert st.packages s m } : VState).sysModules
      = st.sysModules := rfl
  have h2 := hadd { st with packages := dictInsert st.packages s m }
    (by rw [hst1sm]; exact hsm)
  rw [h1]
  have hpk2 : dictInsert (dictInsert st.packages s m) s m = dictInsert st.packages s m :=
    dictInsert_idem st.packages s m
  constructor
  · rfl
  constructor
  · simp only [h2, hpk2]
  constructor
  · have hnames : Versions.names
        ({ st with packages := dictInsert st.packages s m } : VState) =
        Versions.names st ++ [s] := by
      unfold Versions.names
      rw [names_dictInsert]
      rw [if_neg ((alookup_eq_none_iff_not_mem st.packages s).1 hpk)]
    have hnotmem : s ∉ Versions.names st := by
      unfold Versions.names
      exact (alookup_eq_none_iff_not_mem st.packages s).1 hpk
    rw [hnames, List.count_append, List.count_eq_zero.2 hnotmem]
    simp
  · have h2' : (Versions.add_packages env
        ({ st with packages := dictInsert st.packages s m } : VState)
        (PyArg.pyList [PyValue.str s])).2 =
        ({ st with packages := dictInsert st.packages s m } : VState) := by
      simp only [h2, hpk2]
    rw [h2']

/-- Witness for C7 at the importable name `numpy` from the empty state. -/
theorem add_twice_idempotent_witness :
    Versions.add_packages demoEnv
        ((Versions.add_packages demoEnv emptyState
          (PyArg.pyList [PyValue.str "numpy"])).2)
        (PyArg.pyList [PyValue.str "numpy"]) =
      (Except.ok (),
       (Versions.add_packages demoEnv emptyState
          (PyArg.pyList [PyValue.str "numpy"])).2) :=
  (add_twice_idempotent demoEnv [] emptyState "numpy" numpyModule
      (by decide) (by decide) (by decide)).2.1

/-! Width bounds for the text-wrap model. -/

theorem chunksOfAux_sizes (w : Nat) :
    ∀ (fuel : Nat) (l : List Char), ∀ c ∈ chunksOfAux w fuel l, c.length ≤ w := by
  intro fuel
  induction fuel with
  | zero =>
      intro l c hc
      cases l with
      | nil => cases hc
      | cons a as => cases hc
  | succ f ih =>
      intro l c hc
      cases l with
      | nil => cases hc
      | cons a as =>
          rcases List.mem_cons.1 hc with h1 | h2
          · subst h1
            exact List.length_take_le w (a :: as)
          · exact ih _ c h2

theorem greedyWrap_line_length (w : Nat) :
    ∀ (ws : List (List Char)) (cur : List Char),
      cur.length ≤ w → (∀ x ∈ ws, x.length ≤ w) →
      ∀ l ∈ greedyWrap w cur ws, l.length ≤ w := by
  intro ws
  induction ws with
  | nil =>
      intro cur hc _ l hl
      unfold greedyWrap at hl
      by_cases he : cur.isEmpty
      · rw [if_pos he] at hl
        cases hl
      · rw [if_neg he] at hl
        rcases List.mem_cons.1 hl with h1 | h2
        · subst h1; exact hc
        · cases h2
  | cons word rest ih =>
      intro cur hc hw l hl
      have hword : word.length ≤ w := hw word (List.mem_cons_self word rest)
      have hrest : ∀ x ∈ rest, x.length ≤ w := fun x hx =>
        hw x (List.mem_cons_of_mem word hx)
      unfold greedyWrap at hl
      by_cases he : cur.isEmpty
      · rw [if_pos he] at hl
        exact ih word hword hrest l hl
      · rw [if_neg he] at hl
        by_cases hfit : cur.length + 1 + word.length ≤ w
        · rw [if_pos hfit] at hl
          refine ih (cur ++ ' ' :: word) ?_ hrest l hl
          have : (cur ++ ' ' :: word).length = cur.length + 1 + word.length := by
            simp
            omega
          omega
        · rw [if_neg hfit] at hl
          rcases List.mem_cons.1 hl with h1 | h2
          · subst h1; exact hc
          · exact ih word hword hrest l h2

theorem pyWrap_line_length (w : Nat) (s : String) :
    ∀ l ∈ pyWrap w s, l.length ≤ w := by
  intro l hl
  unfold pyWrap at hl
  refine greedyWrap_line_length w _ [] (by simp) ?_ l hl
  intro x hx
  rcases List.mem_flatten.1 hx with ⟨chs, hchs, hx2⟩
  rcases List.mem_map.1 hchs with ⟨word, _, hw⟩
  rw [← hw] at hx2
  exact chunksOfAux_sizes w _ _ x hx2

/-- C8: every line of the wrapped runtime-version block - the host
`sys.version` string wrapped to `text_width - 4` columns with each line
prefixed by a two-space indent - fits within the configured `text_width`
columns. -/
theorem sys_version_line_width (sysVersionStr : String) (text_width : Nat)
    (lines : List String)
    (hl : Versions.sysVersionLines sysVersionStr text_width = Option.some lines) :
    ∀ line ∈ lines, line.length ≤ text_width := by
  unfold Versions.sysVersionLines at hl
  by_cases h4 : text_width - 4 = 0
  · rw [if_pos h4] at hl
    cases hl
  · rw [if_neg h4] at hl
    have hlines : lines = (pyWrap (text_width - 4) sysVersionStr).map
        (fun l => "  " ++ String.mk l) := (Option.some_inj.1 hl).symm
    subst hlines
    intro line hline
    rcases List.mem_map.1 hline with ⟨l, hl2, hline_eq⟩
    have hb : l.length ≤ text_width - 4 :=
      pyWrap_line_length (text_width - 4) sysVersionStr l hl2
    have hlen : ("  " ++ String.mk l).length = 2 + l.length := by
      rw [String.length_append]
      rfl
    rw [← hline_eq, hlen]
    omega

/-- Witness for C8 at `text_width` 10 and a two-word version string. -/
theorem sys_version_line_width_witness :
    ("  hello" : String).length ≤ 10 ∧ ("  world" : String).length ≤ 10 :=
  ⟨sys_version_line_width "hello world" 10 ["  hello", "  world"] (by decide)
      "  hello" (by decide),
   sys_version_line_width "hello world" 10 ["  hello", "  world"] (by decide)
      "  world" (by decide)⟩

/-! The registry name sequence produced by processing a construction
list. -/

theorem pair_eta_ok {σ : Type} (x : Except PyErr Unit × σ)
    (hx : x.1 = Except.ok ()) : x = (Except.ok (), x.2) := by
  cases x with
  | mk a b =>
      simp only at hx
      rw [hx]

theorem addLoop_names_spec (env : ImportEnv) (sm0 : SysModules) (l : List PyValue) :
    ∀ st : VState, mockOnlyExtends env sm0 st.sysModules →
      (∀ p ∈ l, validElem p = true) →
      (Versions.addLoop env st l).1 = Except.ok () ∧
      Versions.names ((Versions.addLoop env st l).2) =
        (l.filterMap (successName env sm0)).foldl
          (fun acc n => if n ∈ acc then acc else acc ++ [n]) (Versions.names st) ∧
      mockOnlyExtends env sm0 ((Versions.addLoop env st l).2).sysModules := by
  induction l with
  | nil =>
      intro st hinv _
      exact ⟨rfl, rfl, hinv⟩
  | cons p rest ih =>
      intro st hinv hval
      have hvrest : ∀ q ∈ rest, validElem q = true := fun q hq =>
        hval q (List.mem_cons_of_mem p hq)
      cases p with
      | str s =>
          cases hsm : alookup st.sysModules s with
          | some h =>
              have him : import_module env st.sysModules s = Option.some h := by
                unfold import_module
                rw [hsm]
              have hsi : Versions._safe_import_by_name env st s = (h, st) := by
                simp only [Versions._safe_import_by_name, him]
              cases h with
              | module m =>
                  have hok : resolvesOK env sm0 s = true := by
                    rcases hinv s with h1 | ⟨h2, _, _⟩
                    · rw [hsm] at h1
                      unfold resolvesOK
                      rw [← h1]
                    · rw [hsm] at h2
                      cases h2
                  have hmd : (Versions._safe_import_by_name env st s).1 =
                      Handle.module m := by rw [hsi]
                  have habn := _add_package_by_name_module env st s m hmd
                  rw [hsi] at habn
                  have hstep : Versions.addLoop env st (PyValue.str s :: rest) =
                      Versions.addLoop env
                        { st with packages := dictInsert st.packages s m } rest := by
                    simp only [Versions.addLoop, habn]
                  obtain ⟨hA, hB, hC⟩ :=
                    ih { st with packages := dictInsert st.packages s m } hinv hvrest
                  refine ⟨by rw [hstep]; exact hA, ?_, by rw [hstep]; exact hC⟩
                  rw [hstep, hB]
                  have hnames : Versions.names
                      ({ st with packages := dictInsert st.packages s m } : VState) =
                      if s ∈ Versions.names st then Versions.names st
                      else Versions.names st ++ [s] := by
                    unfold Versions.names
                    exact names_dictInsert st.packages s m
                  rw [hnames]
                  simp only [List.filterMap_cons, successName, hok, if_true,
                    List.foldl_cons]
              | mock =>
                  have hok : resolvesOK env sm0 s = false := by
                    rcases hinv s with h1 | ⟨_, h2, h3⟩
                    · rw [hsm] at h1
                      unfold resolvesOK
                      rw [← h1]
                    · unfold resolvesOK
                      rw [h2, h3]
                      rfl
                  have hmk : (Versions._safe_import_by_name env st s).1 =
                      Handle.mock := by rw [hsi]
                  have habn := _add_package_by_name_mock env st s hmk
                  rw [hsi] at habn
                  have hstep : Versions.addLoop env st (PyValue.str s :: rest) =
                      Versions.addLoop env st rest := by
                    simp only [Versions.addLoop, habn]
                  obtain ⟨hA, hB, hC⟩ := ih st hinv hvrest
                  refine ⟨by rw [hstep]; exact hA, ?_, by rw [hstep]; exact hC⟩
                  rw [hstep, hB]
                  simp [List.filterMap_cons, successName, hok, Versions.names]
          | none =>
              have hsm0 : alookup sm0 s = Option.none := by
                rcases hinv s with h1 | ⟨h2, _, _⟩
                · rw [hsm] at h1
                  exact h1.symm
                · rw [hsm] at h2
                  cases h2
              cases henv : alookup env s with
              | some m =>
                  have him : import_module env st.sysModules s =
                      Option.some (Handle.module m) := by
                    unfold import_module
                    rw [hsm, henv]
                    rfl
                  have hsi : Versions._safe_import_by_name env st s =
                      (Handle.module m, st) := by
                    simp only [Versions._safe_import_by_name, him]
                  have hok : resolvesOK env sm0 s = true := by
                    unfold resolvesOK
                    rw [hsm0, henv]
                    rfl
                  have hmd : (Versions._safe_import_by_name env st s).1 =
                      Handle.module m := by rw [hsi]
                  have habn := _add_package_by_name_module env st s m hmd
                  rw [hsi] at habn
                  have hstep : Versions.addLoop env st (PyValue.str s :: rest) =
                      Versions.addLoop env
                        { st with packages := dictInsert st.packages s m } rest := by
                    simp only [Versions.addLoop, habn]
                  obtain ⟨hA, hB, hC⟩ :=
                    ih { st with packages := dictInsert st.packages s m } hinv hvrest
                  refine ⟨by rw [hstep]; exact hA, ?_, by rw [hstep]; exact hC⟩
                  rw [hstep, hB]
                  have hnames : Versions.names
                      ({ st with packages := dictInsert st.packages s m } : VState) =
                      if s ∈ Versions.names st then Versions.names st
                      else Versions.names st ++ [s] := by
                    unfold Versions.names
                    exact names_dictInsert st.packages s m
                  rw [hnames]
                  simp only [List.filterMap_cons, successName, hok, if_true,
                    List.foldl_cons]
              | none =>
                  have hsi := safe_import_of_absent env st s hsm henv
                  have hok : resolvesOK env sm0 s = false := by
                    unfold resolvesOK
                    rw [hsm0, henv]
                    rfl
                  have hmk : (Versions._safe_import_by_name env st s).1 =
                      Handle.mock := by rw [hsi]
                  have habn := _add_package_by_name_mock env st s hmk
                  rw [hsi] at habn
                  have hstep : Versions.addLoop env st (PyValue.str s :: rest) =
                      Versions.addLoop env
                        { st with
                            log := st.log ++ [LogMsg.couldNotImport s],
                            sysModules := dictInsert st.sysModules s Handle.mock }
                        rest := by
                    simp only [Versions.addLoop, habn]
                  have hinv' : mockOnlyExtends env sm0
                      (dictInsert st.sysModules s Handle.mock) := by
                    intro n
                    by_cases hn : n = s
                    · subst hn
                      right
                      exact ⟨alookup_dictInsert_self st.sysModules n Handle.mock,
                        hsm0, henv⟩
                    · rw [alookup_dictInsert_ne st.sysModules s n Handle.mock hn]
                      exact hinv n
                  obtain ⟨hA, hB, hC⟩ := ih
                    { st with
                        log := st.log ++ [LogMsg.couldNotImport s],
                        sysModules := dictInsert st.sysModules s Handle.mock }
                    hinv' hvrest
                  refine ⟨by rw [hstep]; exact hA, ?_, by rw [hstep]; exact hC⟩
                  rw [hstep, hB]
                  simp [List.filterMap_cons, successName, hok, Versions.names]
      | module m =>
          have hstep : Versions.addLoop env st (PyValue.module m :: rest) =
              Versions.addLoop env
                { st with packages := dictInsert st.packages m.mod_name m } rest := by
            simp only [Versions.addLoop, Versions._add_package]
          obtain ⟨hA, hB, hC⟩ :=
            ih { st with packages := dictInsert st.packages m.mod_name m } hinv hvrest
          refine ⟨by rw [hstep]; exact hA, ?_, by rw [hstep]; exact hC⟩
          rw [hstep, hB]
          have hnames : Versions.names
              ({ st with packages := dictInsert st.packages m.mod_name m } : VState) =
              if m.mod_name ∈ Versions.names st then Versions.names st
              else Versions.names st ++ [m.mod_name] := by
            unfold Versions.names
            exact names_dictInsert st.packages m.mod_name m
          rw [hnames]
          simp only [List.filterMap_cons, successName, List.foldl_cons]
      | noneVal =>
          have hstep : Versions.addLoop env st (PyValue.noneVal :: rest) =
              Versions.addLoop env st rest := by
            simp only [Versions.addLoop]
          obtain ⟨hA, hB, hC⟩ := ih st hinv hvrest
          refine ⟨by rw [hstep]; exact hA, ?_, by rw [hstep]; exact hC⟩
          rw [hstep, hB]
          simp only [List.filterMap_cons, successName]
      | intVal k =>
          have hko := hval (PyValue.intVal k) (List.mem_cons_self _ rest)
          simp [validElem] at hko

/-- C4: for all valid construction inputs, the registry name sequence
after `__init__` is exactly the successfully resolved names of the core,
optional and additional lists in first-occurrence order; and storing a
module under a name already present overwrites the handle (last write
wins) without moving the name or duplicating the entry. -/
theorem init_names_first_occurrence (env : ImportEnv)
    (core optional additional : Option (List PyValue)) (ncol text_width : Nat)
    (sysMods0 : SysModules) (log0 : List LogMsg)
    (hval : ∀ p ∈ Versions.safety core ++ Versions.safety optional ++
        Versions.safety additional, validElem p = true) :
    (Versions.init env core optional additional ncol text_width sysMods0 log0).1 =
      Except.ok () ∧
    Versions.names
        ((Versions.init env core optional additional ncol text_width sysMods0 log0).2) =
      firstOccur ((Versions.safety core ++ Versions.safety optional ++
          Versions.safety additional).filterMap (successName env sysMods0)) ∧
    (∀ (st : VState) (m : PyModule) (n : String),
      n ∈ Versions.names st →
      (Versions._add_package st (Handle.module m) (Option.some n)).1 = Except.ok () ∧
      Versions.names ((Versions._add_package st (Handle.module m) (Option.some n)).2) =
        Versions.names st ∧
      alookup ((Versions._add_package st (Handle.module m) (Option.some n)).2).packages n =
        Option.some m) := by
  have hvc : ∀ p ∈ Versions.safety core, validElem p = true := fun p hp =>
    hval p (List.mem_append_left _ (List.mem_append_left _ hp))
  have hvo : ∀ p ∈ Versions.safety optional, validElem p = true := fun p hp =>
    hval p (List.mem_append_left _ (List.mem_append_right _ hp))
  have hva : ∀ p ∈ Versions.safety additional, validElem p = true := fun p hp =>
    hval p (List.mem_append_right _ hp)
  have hinv0 : mockOnlyExtends env sysMods0 sysMods0 := fun n => Or.inl rfl
  have st0def : (⟨[], ncol, text_width, sysMods0, log0⟩ : VState).sysModules =
      sysMods0 := rfl
  obtain ⟨h1A, h1B, h1C⟩ := addLoop_names_spec env sysMods0 (Versions.safety core)
    ⟨[], ncol, text_width, sysMods0, log0⟩ hinv0 hvc
  set st1 := (Versions.addLoop env ⟨[], ncol, text_width, sysMods0, log0⟩
    (Versions.safety core)).2 with hst1
  obtain ⟨h2A, h2B, h2C⟩ := addLoop_names_spec env sysMods0 (Versions.safety optional)
    st1 h1C hvo
  set st2 := (Versions.addLoop env st1 (Versions.safety optional)).2 with hst2
  obtain ⟨h3A, h3B, h3C⟩ := addLoop_names_spec env sysMods0 (Versions.safety additional)
    st2 h2C hva
  have hp1 : Versions.addLoop env ⟨[], ncol, text_width, sysMods0, log0⟩
      (Versions.safety core) = (Except.ok (), st1) := by
    rw [hst1]
    exact pair_eta_ok _ h1A
  have hp2 : Versions.addLoop env st1 (Versions.safety optional) =
      (Except.ok (), st2) := by
    rw [hst2]
    exact pair_eta_ok _ h2A
  have hinit : Versions.init env core optional additional ncol text_width sysMods0 log0 =
      Versions.addLoop env st2 (Versions.safety additional) := by
    unfold Versions.init
    simp only [Versions.add_packages, hp1, hp2]
  refine ⟨?_, ?_, ?_⟩
  · rw [hinit]
    exact h3A
  · rw [hinit, h3B, h2B, h1B]
    unfold firstOccur
    rw [List.filterMap_append, List.filterMap_append, List.foldl_append,
      List.foldl_append]
    rfl
  · intro st m n hmem
    unfold Versions.names at hmem
    refine ⟨rfl, ?_, alookup_dictInsert_self st.packages n m⟩
    show Versions.names
        ({ st with packages := dictInsert st.packages n m } : VState) =
      Versions.names st
    unfold Versions.names
    rw [names_dictInsert, if_pos hmem]

/-- Witness for C4: core resolves `numpy` and fails on `zzz`, optional
re-adds `numpy` (no duplicate, position kept) and adds the handle named
`vtk`; the registry names are exactly `numpy`, `vtk`. -/
theorem init_names_first_occurrence_witness :
    Versions.names ((Versions.init demoEnv
        (Option.some [PyValue.str "numpy", PyValue.str "zzz"])
        (Option.some [PyValue.str "numpy", PyValue.module vtkModule])
        Option.none 4 54 [] []).2) = ["numpy", "vtk"] :=
  ((init_names_first_occurrence demoEnv
      (Option.some [PyValue.str "numpy", PyValue.str "zzz"])
      (Option.some [PyValue.str "numpy", PyValue.module vtkModule])
      Option.none 4 54 [] [] (by decide)).2.1).trans (by decide)

end Scooby
